import Mathlib

/-!
Shallow embedding of the SSR caching server (apps/web/server.ts) of the
cmmv-blog repository, and proofs about its page render cache, compression
negotiation, cache keys, static-file conditional responses and admin
endpoints.

Modelling conventions:
  - JavaScript Map objects become association lists (List (String x v))
    with Map.get / Map.set / Map.delete semantics; keys are unique in every
    state reachable through the modelled operations.
  - Node Buffer values become List Nat (byte sequences).
  - Date.now timestamps become Nat milliseconds.  All timestamp comparisons
    in the source are of the form (now - entry.timestamp) < D or > D with
    D = 1800000 > 0; for these the truncated Nat subtraction agrees with
    JavaScript number subtraction whenever now < timestamp would make the
    difference negative (both sides then behave as a non-expired age).
  - The zlib compressors (gzipSync, brotliCompressSync) and the md5 hash
    are external library calls; they are universally quantified function
    parameters, never interpreted.
  - The rendering engine plus HTML assembly pipeline is the external
    collaborator of the spec; it enters as a function parameter from the
    route to the final document string.
-/

/-- Byte sequence standing for a Node Buffer. -/
abbrev Buffer := List Nat

/-- Does the first character list lead (start) the second one?  Model of a
JavaScript startsWith test on the underlying characters. -/
def leadsWith : List Char → List Char → Bool
  | [], _ => true
  | _ :: _, [] => false
  | a :: as, b :: bs => a == b && leadsWith as bs

/-- Is the first character list a contiguous run inside the second? -/
def hasSeq : List Char → List Char → Bool
  | needle, [] => leadsWith needle []
  | needle, hay@(_ :: rest) => leadsWith needle hay || hasSeq needle rest

/-- Model of the JavaScript String.includes method: strIncludes s sub is
true when sub occurs contiguously inside s. -/
def strIncludes (s sub : String) : Bool :=
  hasSeq sub.toList s.toList

/-- Model of the JavaScript String.toLowerCase method. -/
def strToLower (s : String) : String :=
  String.mk (s.toList.map Char.toLower)

/-- Map.get on an association list: first binding of the key, if any. -/
def mapGet {α : Type} : List (String × α) → String → Option α
  | [], _ => none
  | (k, v) :: rest, key => if k == key then some v else mapGet rest key

/-- Map.set on an association list: replace the first binding of the key in
place, or append a new binding at the end (JavaScript Map insertion
order). -/
def mapSet {α : Type} : List (String × α) → String → α → List (String × α)
  | [], key, v => [(key, v)]
  | (k, w) :: rest, key, v =>
      if k == key then (key, v) :: rest else (k, w) :: mapSet rest key v

/-- The three payload variants of a page cache entry, mirroring the
compressedVersions field of the PageCacheEntry interface: gzip and br are
optional Buffers, uncompressed is a required string. -/
structure CompressedVersions where
  gzip : Option Buffer
  br : Option Buffer
  uncompressed : String
deriving DecidableEq, Repr

/-- Mirror of the PageCacheEntry interface of server.ts. -/
structure PageCacheEntry where
  html : String
  compressedVersions : CompressedVersions
  timestamp : Nat
  headers : List (String × String)
deriving DecidableEq, Repr

/-- The pageCache Map of server.ts. -/
abbrev PageCache := List (String × PageCacheEntry)

/-- PAGE_CACHE_DURATION of server.ts: the page cache TTL, 30 minutes in
milliseconds. -/
def PAGE_CACHE_DURATION : Nat := 30 * 60 * 1000

/-- cleanExpiredPageCache of server.ts: delete every entry whose age is
strictly greater than the TTL. -/
def cleanExpiredPageCache (now : Nat) (m : PageCache) : PageCache :=
  m.filter (fun p => !(decide (now - p.2.timestamp > PAGE_CACHE_DURATION)))

/-- isPageCacheValid of server.ts: an entry is valid when it exists and its
age is strictly less than the TTL. -/
def isPageCacheValid (now : Nat) (m : PageCache) (key : String) : Bool :=
  match mapGet m key with
  | none => false
  | some entry => decide (now - entry.timestamp < PAGE_CACHE_DURATION)

/-- Device class inferred from the optional User-Agent header, mirroring
the ternary userAgent?.toLowerCase().includes(..) test of
generateCacheKey. -/
def deviceClass (userAgent : Option String) : String :=
  match userAgent with
  | some ua => if strIncludes (strToLower ua) "mobile" then "mobile" else "desktop"
  | none => "desktop"

/-- generateCacheKey of server.ts: url, a colon, and the device class. -/
def generateCacheKey (url : String) (userAgent : Option String) : String :=
  url ++ ":" ++ deviceClass userAgent

/-- clearPageCache of server.ts.  The returned Nat is the cacheSize read
before clearing, which the source reports in its console log line; the
function result in JavaScript is undefined and the HTTP handler ignores
it. -/
def clearPageCache (m : PageCache) : Nat × PageCache :=
  (m.length, [])

/-- Result record of getCacheStats of server.ts. -/
structure CacheStats where
  total : Nat
  valid : Nat
  expired : Nat
deriving DecidableEq, Repr

/-- getCacheStats of server.ts: one pass over the entries, counting an
entry as expired when its age is strictly greater than the TTL and as
valid otherwise. -/
def getCacheStats (now : Nat) (m : PageCache) : CacheStats :=
  let counts := m.foldl
    (fun acc p =>
      if now - p.2.timestamp > PAGE_CACHE_DURATION then (acc.1, acc.2 + 1)
      else (acc.1 + 1, acc.2))
    (0, 0)
  { total := m.length, valid := counts.1, expired := counts.2 }

/-- The lookup operation of the dispatcher cache-hit path: consult the
entry only when isPageCacheValid holds (lines 403-404 of server.ts). -/
def lookupPage (now : Nat) (m : PageCache) (key : String) : Option PageCacheEntry :=
  if isPageCacheValid now m key then mapGet m key else none

/-- The two response headers stored with every rendered page (the
responseHeaders object of the SSR path). -/
def responseHeadersDefault : List (String × String) :=
  [("Content-Type", "text/html"), ("Cache-Control", "public, max-age=900")]

/-- pageCache.set of the SSR path (lines 481-493 of server.ts): store the
rendered template with all three variants precomputed from it. -/
def storePage (gz brc : String → Buffer) (now : Nat) (m : PageCache)
    (key template : String) (headers : List (String × String)) : PageCache :=
  mapSet m key
    { html := template
      compressedVersions :=
        { gzip := some (gz template)
          br := some (brc template)
          uncompressed := template }
      timestamp := now
      headers := headers }

/-- Payload of an HTML response: either a raw string or a compressed
Buffer, mirroring the data field of compressHtml. -/
inductive HtmlData where
  | str (s : String)
  | buf (b : Buffer)
deriving DecidableEq, Repr

/-- Result of compressHtml of server.ts. -/
structure CompressOut where
  data : HtmlData
  encoding : Option String
deriving DecidableEq, Repr

/-- compressHtml of server.ts: brotli when the Accept-Encoding string
contains br, else gzip when it contains gzip, else the raw string with no
encoding. -/
def compressHtml (gz brc : String → Buffer) (html : String)
    (acceptEncoding : String) : CompressOut :=
  if strIncludes acceptEncoding "br" then
    { data := .buf (brc html), encoding := some "br" }
  else if strIncludes acceptEncoding "gzip" then
    { data := .buf (gz html), encoding := some "gzip" }
  else
    { data := .str html, encoding := none }

/-- compressFile of server.ts: the same negotiation over Buffers. -/
def compressFile (gzB brB : Buffer → Buffer) (buffer : Buffer)
    (acceptEncoding : String) : Buffer × Option String :=
  if strIncludes acceptEncoding "br" then
    (brB buffer, some "br")
  else if strIncludes acceptEncoding "gzip" then
    (gzB buffer, some "gzip")
  else
    (buffer, none)

/-- Variant selection of the dispatcher cache-hit path (lines 415-423 of
server.ts): a compressed variant is used only when the client accepts the
encoding and the variant is present. -/
def selectVariant (e : PageCacheEntry) (acceptEncoding : String) :
    HtmlData × Option String :=
  match (if strIncludes acceptEncoding "br" then e.compressedVersions.br else none) with
  | some b => (.buf b, some "br")
  | none =>
    match (if strIncludes acceptEncoding "gzip" then e.compressedVersions.gzip else none) with
    | some g => (.buf g, some "gzip")
    | none => (.str e.compressedVersions.uncompressed, none)

/-- Outcome of one cache-or-render cycle. -/
structure SsrOut where
  body : HtmlData
  encoding : Option String
  headers : List (String × String)
  cacheHit : Bool
deriving DecidableEq, Repr

/-- One cache-or-render cycle of the dispatcher (lines 399-500 of
server.ts): sweep expired entries, build the cache key, serve a valid
cached entry through variant selection, otherwise render, store all three
variants and answer through compressHtml.  The render parameter is the
external collaborator producing the final assembled document for a
route. -/
def ssrCycle (gz brc : String → Buffer) (render : String → String)
    (now : Nat) (m : PageCache) (url userAgent acceptEncoding : String) :
    SsrOut × PageCache :=
  let m1 := cleanExpiredPageCache now m
  let cacheKey := generateCacheKey url (some userAgent)
  match (if isPageCacheValid now m1 cacheKey then mapGet m1 cacheKey else none) with
  | some entry =>
    let sel := selectVariant entry acceptEncoding
    ({ body := sel.1, encoding := sel.2, headers := entry.headers, cacheHit := true }, m1)
  | none =>
    let template := render url
    let m2 := storePage gz brc now m1 cacheKey template responseHeadersDefault
    let c := compressHtml gz brc template acceptEncoding
    ({ body := c.data, encoding := c.encoding, headers := responseHeadersDefault,
       cacheHit := false }, m2)

/-- A concrete entry created at time 0, used in concrete instantiations. -/
def demoEntry0 : PageCacheEntry :=
  { html := "<html></html>"
    compressedVersions :=
      { gzip := some [1, 2], br := some [3], uncompressed := "<html></html>" }
    timestamp := 0
    headers := responseHeadersDefault }

/-- A one-entry cache holding demoEntry0 under key k. -/
def demoCacheBoundary : PageCache := [("k", demoEntry0)]

/-- Response bodies of the admin endpoints of server.ts, with the JSON
object payloads represented structurally. -/
inductive RespBody where
  | text (s : String)
  | jsonSuccess (success : Bool) (message : String)
  | jsonStats (total valid expired : Nat)
deriving DecidableEq, Repr

/-- An HTTP response of an admin endpoint. -/
structure HttpResponse where
  status : Nat
  contentType : String
  body : RespBody
deriving DecidableEq, Repr

/-- The POST /cache/clear handler of server.ts (lines 259-275): bearer
check, then clearPageCache, then a fixed success JSON body.  The count
computed by clearPageCache goes only to the console log and is not part of
the response. -/
def cacheClearHandler (signature authHeader : String) (m : PageCache) :
    HttpResponse × PageCache :=
  if authHeader != "Bearer " ++ signature then
    ({ status := 401, contentType := "text/plain", body := .text "Unauthorized" }, m)
  else
    let cleared := clearPageCache m
    ({ status := 200, contentType := "application/json",
       body := .jsonSuccess true "Cache cleared successfully" }, cleared.2)

/-- The GET /cache/stats handler of server.ts (lines 277-293): bearer
check, then the getCacheStats numbers as JSON; the cache itself is passed
through untouched. -/
def cacheStatsHandler (signature authHeader : String) (now : Nat) (m : PageCache) :
    HttpResponse × PageCache :=
  if authHeader != "Bearer " ++ signature then
    ({ status := 401, contentType := "text/plain", body := .text "Unauthorized" }, m)
  else
    let stats := getCacheStats now m
    ({ status := 200, contentType := "application/json",
       body := .jsonStats stats.total stats.valid stats.expired }, m)

/-- A one-entry cache for the clear counterexample. -/
def demoCacheOne : PageCache := [("a", demoEntry0)]

/-- A two-entry cache for the clear counterexample. -/
def demoCacheTwo : PageCache := [("a", demoEntry0), ("b", demoEntry0)]

/-- Admin or dispatcher operation touching the page cache. -/
inductive CacheOp where
  | request (now : Nat) (url userAgent acceptEncoding : String)
  | clearAll
  | sweep (now : Nat)
deriving Repr

/-- Effect of one operation on the page cache state. -/
def applyOp (gz brc : String → Buffer) (render : String → String)
    (m : PageCache) : CacheOp → PageCache
  | .request now url ua acc => (ssrCycle gz brc render now m url ua acc).2
  | .clearAll => (clearPageCache m).2
  | .sweep now => cleanExpiredPageCache now m

/-- Page cache state reached from the empty startup state through a
sequence of operations. -/
def runOps (gz brc : String → Buffer) (render : String → String)
    (ops : List CacheOp) : PageCache :=
  ops.foldl (applyOp gz brc render) []

/-- Full-variant invariant of a page cache entry: all three payload
variants are present and all derive from the single rendered document held
in the html field. -/
def entryOk (gz brc : String → Buffer) (e : PageCacheEntry) : Prop :=
  e.compressedVersions.gzip = some (gz e.html) ∧
  e.compressedVersions.br = some (brc e.html) ∧
  e.compressedVersions.uncompressed = e.html

/-- A concrete stand-in for gzipSync on strings. -/
def dGz (s : String) : Buffer := [s.length]

/-- A concrete stand-in for brotliCompressSync on strings. -/
def dBrc (s : String) : Buffer := [s.length + 1]

/-- A concrete stand-in for the rendering collaborator. -/
def dRender (url : String) : String := "<html>" ++ url ++ "</html>"

/-- The entry a cache-or-render cycle at time 5 for route / stores under
the desktop key when the collaborators are the concrete stand-ins. -/
def demoStoredEntry : PageCacheEntry :=
  { html := dRender "/"
    compressedVersions :=
      { gzip := some (dGz (dRender "/"))
        br := some (dBrc (dRender "/"))
        uncompressed := dRender "/" }
    timestamp := 5
    headers := responseHeadersDefault }

/-- A concrete stand-in for gzipSync on Buffers. -/
def dGzB (b : Buffer) : Buffer := 0 :: b

/-- A concrete stand-in for brotliCompressSync on Buffers. -/
def dBrB (b : Buffer) : Buffer := 1 :: b

/-- A concrete stand-in for the md5 hex digest. -/
def dMd5 (b : Buffer) : String := String.mk (List.replicate b.length 'x')

/-- Mirror of the fileCache entries of server.ts. -/
structure FileCacheEntry where
  buffer : Buffer
  etag : String
  mtime : Nat
deriving DecidableEq, Repr

/-- The fileCache Map of server.ts. -/
abbrev FileCache := List (String × FileCacheEntry)

/-- Lines 149-161 of server.ts: reuse the cached bytes and entity tag when
the modification time matches, otherwise read the file, hash it and
replace the cache entry. -/
def staticLoad (md5 : Buffer → String) (fc : FileCache) (filePath : String)
    (mtime : Nat) (bytes : Buffer) : Buffer × String × FileCache :=
  match mapGet fc filePath with
  | some ce =>
    if ce.mtime == mtime then (ce.buffer, ce.etag, fc)
    else (bytes, md5 bytes,
      mapSet fc filePath { buffer := bytes, etag := md5 bytes, mtime := mtime })
  | none => (bytes, md5 bytes,
      mapSet fc filePath { buffer := bytes, etag := md5 bytes, mtime := mtime })

/-- The current entity tag of a static file: the component of staticLoad
that serveStaticFile compares against If-None-Match. -/
def staticEtag (md5 : Buffer → String) (fc : FileCache) (filePath : String)
    (mtime : Nat) (bytes : Buffer) : String :=
  (staticLoad md5 fc filePath mtime bytes).2.1

/-- The compressibleTypes list of serveStaticFile. -/
def compressibleTypes : List String :=
  ["text/", "application/javascript", "application/json", "image/svg+xml",
   "application/xml"]

/-- A static-file response: a 304 carries no body. -/
structure StaticResponse where
  status : Nat
  headers : List (String × String)
  body : Option Buffer
deriving DecidableEq, Repr

/-- serveStaticFile of server.ts (lines 134-198).  The file parameter is
the file system state at filePath: none when the file is absent or not a
regular file (the function then reports not-served); otherwise the
modification time and content bytes.  mimeLookup models the mime-types
lookup by extension. -/
def serveStaticFile (md5 : Buffer → String) (gzB brB : Buffer → Buffer)
    (mimeLookup : String → Option String)
    (file : Option (Nat × Buffer)) (fc : FileCache) (filePath : String)
    (ifNoneMatch acceptEncoding : String) :
    Option (StaticResponse × FileCache) :=
  match file with
  | none => none
  | some (mtime, bytes) =>
    let loaded := staticLoad md5 fc filePath mtime bytes
    let buffer := loaded.1
    let etag := loaded.2.1
    let fc2 := loaded.2.2
    let contentType := (mimeLookup filePath).getD "application/octet-stream"
    if ifNoneMatch == etag then
      some ({ status := 304, headers := [("ETag", etag)], body := none }, fc2)
    else
      let baseHeaders := [("Content-Type", contentType), ("ETag", etag),
        ("Cache-Control", "public, max-age=900")]
      if compressibleTypes.any (fun t => strIncludes contentType t) then
        let comp := compressFile gzB brB buffer acceptEncoding
        match comp.2 with
        | some enc =>
          some ({ status := 200,
                  headers := baseHeaders ++
                    [("Content-Encoding", enc), ("Vary", "Accept-Encoding")],
                  body := some comp.1 }, fc2)
        | none =>
          some ({ status := 200, headers := baseHeaders, body := some comp.1 }, fc2)
      else
        some ({ status := 200, headers := baseHeaders, body := some buffer }, fc2)

/-- The namespace the set-thema handler extracts from a theme map key (the
regex match of line 326 of server.ts, evaluated on the keys built at
startup, which all have the shape ./FOLDER/theme.json with FOLDER a
directory name free of slashes): the non-empty slash-free part between
./theme- and /theme.json, or the empty string when the key does not have
that shape. -/
def themeNameOfKey (key : String) : String :=
  let cs := key.toList
  let pre := "./theme-".toList
  let suf := "/theme.json".toList
  if leadsWith pre cs then
    let rest := cs.drop pre.length
    if decide (suf.length < rest.length) &&
        leadsWith suf (rest.drop (rest.length - suf.length)) then
      let core := rest.take (rest.length - suf.length)
      if core.contains '/' then "" else String.mk core
    else ""
  else ""

/-- The keys of the themes record built at startup (lines 213-235 of
server.ts): one key ./FOLDER/theme.json per directory FOLDER whose name
starts with theme-.  The folders argument stands for the subdirectories
whose manifest was found and parsed (manifest failures are skipped). -/
def themeKeys (folders : List String) : List String :=
  (folders.filter (fun f => leadsWith "theme-".toList f.toList)).map
    (fun f => "./" ++ f ++ "/theme.json")

/-- The themeExists test of the set-thema handler (lines 325-328). -/
def themeExists (keys : List String) (theme : String) : Bool :=
  keys.any (fun k => themeNameOfKey k == theme)

/-- Parse outcome of the set-thema request body: JSON.parse may throw
(malformed), or yield an object whose theme field is absent or null
(parsed none) or a string (parsed some). -/
inductive BodyParse where
  | malformed
  | parsed (theme : Option String)
deriving DecidableEq, Repr

/-- Observable outcome of the set-thema handler: status, body text, and
whether the delayed restart was scheduled. -/
structure SetThemaOutcome where
  status : Nat
  body : String
  restartScheduled : Bool
deriving DecidableEq, Repr

/-- The POST /set-thema handler of server.ts (lines 295-365): bearer
check; 400 on a body that fails to parse; 400 when the theme field is
missing or falsy (the empty string is falsy in JavaScript); 404 when no
registry key matches the theme; otherwise the settings fetch runs
(settingsFetchOk false models a rejected fetch, caught by the handler as
400) and on success the handler answers 200 and schedules the restart.
The registry keys are returned unchanged on every path. -/
def setThemaHandler (keys : List String) (signature authHeader : String)
    (body : BodyParse) (settingsFetchOk : Bool) : SetThemaOutcome × List String :=
  if authHeader != "Bearer " ++ signature then
    ({ status := 401, body := "Unauthorized", restartScheduled := false }, keys)
  else
    match body with
    | .malformed =>
      ({ status := 400, body := "Invalid request body", restartScheduled := false }, keys)
    | .parsed none =>
      ({ status := 400, body := "Theme name is required", restartScheduled := false }, keys)
    | .parsed (some t) =>
      if t == "" then
        ({ status := 400, body := "Theme name is required", restartScheduled := false }, keys)
      else if themeExists keys t then
        if settingsFetchOk then
          ({ status := 200,
             body := "Theme set successfully. Server will restart to apply changes.",
             restartScheduled := true }, keys)
        else
          ({ status := 400, body := "Invalid request body", restartScheduled := false }, keys)
      else
        ({ status := 404, body := "Theme not found", restartScheduled := false }, keys)

/-! Helper lemmas about the association-list map operations. -/

theorem mapGet_mapSet_self {α : Type} (m : List (String × α)) (k : String) (v : α) :
    mapGet (mapSet m k v) k = some v := by
  induction m with
  | nil => simp [mapSet, mapGet]
  | cons p rest ih =>
    obtain ⟨pk, pv⟩ := p
    by_cases h : pk = k
    · subst h
      simp [mapSet, mapGet]
    · have hb : (pk == k) = false := beq_false_of_ne h
      simp [mapSet, mapGet, hb, ih]

theorem mapGet_mem {α : Type} (m : List (String × α)) (k : String) (v : α)
    (h : mapGet m k = some v) : (k, v) ∈ m := by
  induction m with
  | nil => simp [mapGet] at h
  | cons p rest ih =>
    obtain ⟨pk, pv⟩ := p
    by_cases hk : pk = k
    · subst hk
      simp [mapGet] at h
      subst h
      exact List.mem_cons_self _ _
    · have hb : (pk == k) = false := beq_false_of_ne hk
      simp [mapGet, hb] at h
      exact List.mem_cons_of_mem _ (ih h)

theorem mem_mapSet {α : Type} (m : List (String × α)) (k : String) (v : α)
    (p : String × α) (h : p ∈ mapSet m k v) : p ∈ m ∨ p = (k, v) := by
  induction m with
  | nil =>
    simp [mapSet] at h
    exact Or.inr h
  | cons q rest ih =>
    obtain ⟨qk, qv⟩ := q
    by_cases hk : qk = k
    · subst hk
      simp only [mapSet, beq_self_eq_true, if_true] at h
      rcases List.mem_cons.mp h with h1 | h2
      · exact Or.inr h1
      · exact Or.inl (List.mem_cons_of_mem _ h2)
    · have hb : (qk == k) = false := beq_false_of_ne hk
      simp only [mapSet, hb, Bool.false_eq_true, if_false] at h
      rcases List.mem_cons.mp h with h1 | h2
      · exact Or.inl (List.mem_cons.mpr (Or.inl h1))
      · rcases ih h2 with h3 | h4
        · exact Or.inl (List.mem_cons_of_mem _ h3)
        · exact Or.inr h4

/-- Membership in the sweep result: kept exactly when present before and
not strictly older than the TTL. -/
theorem mem_cleanExpiredPageCache (now : Nat) (m : PageCache) (p : String × PageCacheEntry) :
    p ∈ cleanExpiredPageCache now m ↔
      p ∈ m ∧ ¬(now - p.2.timestamp > PAGE_CACHE_DURATION) := by
  simp [cleanExpiredPageCache, List.mem_filter]

/-- The counting loop of getCacheStats, with general starting counters. -/
theorem getCacheStats_foldl (now : Nat) (m : PageCache) (a b : Nat) :
    m.foldl
      (fun acc p =>
        if now - p.2.timestamp > PAGE_CACHE_DURATION then (acc.1, acc.2 + 1)
        else (acc.1 + 1, acc.2))
      (a, b) =
    (a + m.countP (fun p => !(decide (now - p.2.timestamp > PAGE_CACHE_DURATION))),
     b + m.countP (fun p => decide (now - p.2.timestamp > PAGE_CACHE_DURATION))) := by
  induction m generalizing a b with
  | nil => simp
  | cons p rest ih =>
    rw [List.foldl_cons]
    by_cases h : now - p.2.timestamp > PAGE_CACHE_DURATION <;>
      simp [h, ih, List.countP_cons, Prod.ext_iff] <;> omega

/-- Closed form of getCacheStats: the total is the entry count, the valid
and expired counters count the entries by the strictly-greater-than age
test. -/
theorem getCacheStats_eq (now : Nat) (m : PageCache) :
    getCacheStats now m =
      { total := m.length
        valid := m.countP (fun p => !(decide (now - p.2.timestamp > PAGE_CACHE_DURATION)))
        expired := m.countP (fun p => decide (now - p.2.timestamp > PAGE_CACHE_DURATION)) } := by
  simp only [getCacheStats, getCacheStats_foldl, Nat.zero_add]

/-- The valid counter of getCacheStats counts the entries not strictly
older than the TTL. -/
theorem getCacheStats_valid_eq_countP (now : Nat) (m : PageCache) :
    (getCacheStats now m).valid
      = m.countP (fun p => !(decide (now - p.2.timestamp > PAGE_CACHE_DURATION))) := by
  rw [getCacheStats_eq]

/-- The expired counter of getCacheStats counts the entries strictly older
than the TTL. -/
theorem getCacheStats_expired_eq_countP (now : Nat) (m : PageCache) :
    (getCacheStats now m).expired
      = m.countP (fun p => decide (now - p.2.timestamp > PAGE_CACHE_DURATION)) := by
  rw [getCacheStats_eq]

/-- Characterization of a lookup MISS: the key is absent, or the age of
its entry is at least the TTL. -/
theorem isPageCacheValid_eq_false_iff (now : Nat) (m : PageCache) (key : String) :
    isPageCacheValid now m key = false ↔
      mapGet m key = none ∨
        ∃ e, mapGet m key = some e ∧ PAGE_CACHE_DURATION ≤ now - e.timestamp := by
  cases h : mapGet m key with
  | none => simp [isPageCacheValid, h]
  | some e => simp [isPageCacheValid, h, Nat.not_lt]

/-- C1 counterexample: with the clock at exactly the TTL after the store,
the lookup reports MISS although the entry exists and its age does not
exceed (is not strictly greater than) the TTL, so the claimed
characterization of MISS fails at this input. -/
theorem claimC1_counterexample :
    isPageCacheValid PAGE_CACHE_DURATION demoCacheBoundary "k" = false ∧
    mapGet demoCacheBoundary "k" = some demoEntry0 ∧
    ¬(PAGE_CACHE_DURATION - demoEntry0.timestamp > PAGE_CACHE_DURATION) := by
  refine ⟨by decide, by decide, by decide⟩

/-- C1 (amended): lookup returns MISS exactly when no entry exists for the
key or the age of the entry is at least the TTL of 30 minutes; entries are
physically removed only by the sweep, which keeps exactly the entries not
strictly older than the TTL and runs at the start of each cache-or-render
cycle, after which no entry strictly older than the TTL remains.  Lookup
itself (isPageCacheValid composed with Map.get) is a pure read and returns
no modified cache. -/
theorem claimC1 (gz brc : String → Buffer) (render : String → String)
    (now : Nat) (m : PageCache) (key url userAgent acceptEncoding : String) :
    PAGE_CACHE_DURATION = 30 * 60 * 1000 ∧
    (isPageCacheValid now m key = false ↔
      mapGet m key = none ∨
        ∃ e, mapGet m key = some e ∧ PAGE_CACHE_DURATION ≤ now - e.timestamp) ∧
    (∀ p, p ∈ cleanExpiredPageCache now m ↔
      p ∈ m ∧ ¬(now - p.2.timestamp > PAGE_CACHE_DURATION)) ∧
    (∀ p, p ∈ (ssrCycle gz brc render now m url userAgent acceptEncoding).2 →
      ¬(now - p.2.timestamp > PAGE_CACHE_DURATION)) := by
  refine ⟨rfl, isPageCacheValid_eq_false_iff now m key,
    fun p => mem_cleanExpiredPageCache now m p, fun p hp => ?_⟩
  unfold ssrCycle at hp
  dsimp only at hp
  set m1 := cleanExpiredPageCache now m with hm1
  cases hmatch : (if isPageCacheValid now m1 (generateCacheKey url (some userAgent))
      then mapGet m1 (generateCacheKey url (some userAgent)) else none) with
  | some entry =>
    rw [hmatch] at hp
    dsimp only at hp
    exact ((mem_cleanExpiredPageCache now m p).mp hp).2
  | none =>
    rw [hmatch] at hp
    dsimp only at hp
    rcases mem_mapSet _ _ _ _ hp with h1 | h2
    · exact ((mem_cleanExpiredPageCache now m p).mp h1).2
    · rw [h2]
      simp [Nat.sub_self]

/-- C1 witness: the amended characterization applied at the boundary
cache: the lookup at exactly the TTL is a MISS, and the sweep keeps the
boundary entry. -/
theorem claimC1_witness :
    isPageCacheValid PAGE_CACHE_DURATION demoCacheBoundary "k" = false ∧
    ("k", demoEntry0) ∈ cleanExpiredPageCache PAGE_CACHE_DURATION demoCacheBoundary := by
  have h := claimC1 (fun s => [s.length]) (fun s => [s.length + 1]) (fun _ => "r")
    PAGE_CACHE_DURATION demoCacheBoundary "k" "/" "" ""
  refine ⟨h.2.1.mpr (Or.inr ⟨demoEntry0, by decide, by decide⟩),
    (h.2.2.1 ("k", demoEntry0)).mpr ⟨by decide, by decide⟩⟩

/-- C10: an entry whose age is exactly the TTL is invalid for lookup
(MISS), is kept by the sweep, and is classified as valid by the stats
counters, whose valid count is therefore positive. -/
theorem claimC10 (now : Nat) (m : PageCache) (key : String) (entry : PageCacheEntry)
    (hget : mapGet m key = some entry)
    (hage : now - entry.timestamp = PAGE_CACHE_DURATION) :
    isPageCacheValid now m key = false ∧
    (key, entry) ∈ cleanExpiredPageCache now m ∧
    ¬(now - entry.timestamp > PAGE_CACHE_DURATION) ∧
    0 < (getCacheStats now m).valid := by
  have hmem : (key, entry) ∈ m := mapGet_mem m key entry hget
  have hnotgt : ¬(now - entry.timestamp > PAGE_CACHE_DURATION) := by
    rw [hage]; exact lt_irrefl _
  refine ⟨?_, (mem_cleanExpiredPageCache now m _).mpr ⟨hmem, hnotgt⟩, hnotgt, ?_⟩
  · apply (isPageCacheValid_eq_false_iff now m key).mpr
    exact Or.inr ⟨entry, hget, le_of_eq hage.symm⟩
  · rw [getCacheStats_valid_eq_countP]
    apply List.countP_pos_iff.mpr
    exact ⟨(key, entry), hmem, by simpa using hnotgt⟩

/-- C10 witness: the boundary cache at the boundary clock. -/
theorem claimC10_witness :
    isPageCacheValid PAGE_CACHE_DURATION demoCacheBoundary "k" = false ∧
    ("k", demoEntry0) ∈ cleanExpiredPageCache PAGE_CACHE_DURATION demoCacheBoundary ∧
    ¬(PAGE_CACHE_DURATION - demoEntry0.timestamp > PAGE_CACHE_DURATION) ∧
    0 < (getCacheStats PAGE_CACHE_DURATION demoCacheBoundary).valid :=
  claimC10 PAGE_CACHE_DURATION demoCacheBoundary "k" demoEntry0 (by decide) (by decide)

/-- C2 counterexample: the authorized clear response is one and the same
value for caches of different sizes, and its body is the fixed success
JSON, so the operation does not return the count of entries present before
the call (the count is only logged). -/
theorem claimC2_counterexample :
    (cacheClearHandler "s" "Bearer s" demoCacheOne).1
      = (cacheClearHandler "s" "Bearer s" demoCacheTwo).1 ∧
    (cacheClearHandler "s" "Bearer s" demoCacheOne).1.body
      = RespBody.jsonSuccess true "Cache cleared successfully" ∧
    demoCacheOne.length ≠ demoCacheTwo.length := by
  refine ⟨by decide, by decide, by decide⟩

/-- C2 (amended): for every cache state, the clear operation empties the
cache and computes for its console log a count equal to the number of
entries present immediately before the call; the authorized HTTP response
is a fixed success JSON carrying no count; afterwards every lookup returns
MISS. -/
theorem claimC2 (m : PageCache) (signature : String) (now : Nat) :
    (clearPageCache m).1 = m.length ∧
    (clearPageCache m).2 = [] ∧
    (cacheClearHandler signature ("Bearer " ++ signature) m).1.status = 200 ∧
    (cacheClearHandler signature ("Bearer " ++ signature) m).1.body
      = RespBody.jsonSuccess true "Cache cleared successfully" ∧
    (cacheClearHandler signature ("Bearer " ++ signature) m).2 = [] ∧
    (∀ key, lookupPage now (cacheClearHandler signature ("Bearer " ++ signature) m).2 key
      = none) := by
  have hauth : (("Bearer " ++ signature) != ("Bearer " ++ signature)) = false := by
    simp
  refine ⟨rfl, rfl, ?_, ?_, ?_, ?_⟩ <;>
    simp [cacheClearHandler, hauth, clearPageCache, lookupPage, isPageCacheValid, mapGet]

/-- C3: storing a rendered document and looking it up with an unchanged
clock is a hit, and the uncompressed variant of the entry equals the
stored document. -/
theorem claimC3 (gz brc : String → Buffer) (now : Nat) (m : PageCache)
    (key doc : String) (headers : List (String × String)) :
    ∃ e, lookupPage now (storePage gz brc now m key doc headers) key = some e ∧
      e.compressedVersions.uncompressed = doc := by
  refine ⟨{ html := doc
            compressedVersions :=
              { gzip := some (gz doc), br := some (brc doc), uncompressed := doc }
            timestamp := now
            headers := headers }, ?_, rfl⟩
  have hget : mapGet (storePage gz brc now m key doc headers) key =
      some { html := doc
             compressedVersions :=
               { gzip := some (gz doc), br := some (brc doc), uncompressed := doc }
             timestamp := now
             headers := headers } :=
    mapGet_mapSet_self m key _
  have hval : isPageCacheValid now (storePage gz brc now m key doc headers) key = true := by
    simp only [isPageCacheValid, hget]
    rw [Nat.sub_self]
    decide
  simp [lookupPage, hval, hget]

/-- Invariant step: every operation preserves the full-variant invariant
of all entries. -/
theorem entryOk_applyOp (gz brc : String → Buffer) (render : String → String)
    (m : PageCache) (op : CacheOp)
    (hm : ∀ p ∈ m, entryOk gz brc p.2) :
    ∀ p ∈ applyOp gz brc render m op, entryOk gz brc p.2 := by
  intro p hp
  cases op with
  | clearAll => simp [applyOp, clearPageCache] at hp
  | sweep now =>
    exact hm p ((mem_cleanExpiredPageCache now m p).mp hp).1
  | request now url ua acc =>
    simp only [applyOp] at hp
    unfold ssrCycle at hp
    dsimp only at hp
    cases hmatch : (if isPageCacheValid now (cleanExpiredPageCache now m)
        (generateCacheKey url (some ua))
        then mapGet (cleanExpiredPageCache now m) (generateCacheKey url (some ua))
        else none) with
    | some entry =>
      rw [hmatch] at hp
      dsimp only at hp
      exact hm p ((mem_cleanExpiredPageCache now m p).mp hp).1
    | none =>
      rw [hmatch] at hp
      dsimp only at hp
      rcases mem_mapSet _ _ _ _ hp with h1 | h2
      · exact hm p ((mem_cleanExpiredPageCache now m p).mp h1).1
      · rw [h2]
        exact ⟨rfl, rfl, rfl⟩

/-- C4: in every cache state reachable from startup through render cycles,
clears and sweeps, every entry carries all three payload variants, each
derived from the single rendered document of the entry; in particular the
uncompressed variant is always present and equal to that document. -/
theorem claimC4 (gz brc : String → Buffer) (render : String → String)
    (ops : List CacheOp) (p : String × PageCacheEntry)
    (hp : p ∈ runOps gz brc render ops) :
    p.2.compressedVersions.gzip = some (gz p.2.html) ∧
    p.2.compressedVersions.br = some (brc p.2.html) ∧
    p.2.compressedVersions.uncompressed = p.2.html := by
  have main : ∀ (l : List CacheOp) (m : PageCache),
      (∀ q ∈ m, entryOk gz brc q.2) →
      ∀ q ∈ l.foldl (applyOp gz brc render) m, entryOk gz brc q.2 := by
    intro l
    induction l with
    | nil =>
      intro m hm
      simpa using hm
    | cons op rest ih =>
      intro m hm
      rw [List.foldl_cons]
      exact ih _ (entryOk_applyOp gz brc render m op hm)
  exact main ops [] (by simp) p hp

/-- C4 witness: the entry stored by a concrete cache-or-render cycle
carries all three variants derived from its rendered document. -/
theorem claimC4_witness :
    demoStoredEntry.compressedVersions.gzip = some (dGz demoStoredEntry.html) ∧
    demoStoredEntry.compressedVersions.br = some (dBrc demoStoredEntry.html) ∧
    demoStoredEntry.compressedVersions.uncompressed = demoStoredEntry.html :=
  claimC4 dGz dBrc dRender [CacheOp.request 5 "/" "" ""]
    ("/:desktop", demoStoredEntry) (by decide)

/-- C5: the compression negotiation is a pure function of the
Accept-Encoding string with a fixed priority: brotli when br is accepted
(occurs in the string), else gzip when gzip is accepted, else the payload
passes through uncompressed with no encoding marked; compressHtml and
compressFile follow the same order. -/
theorem claimC5 (gz brc : String → Buffer) (gzB brB : Buffer → Buffer)
    (html : String) (buffer : Buffer) (acc : String) :
    (strIncludes acc "br" = true →
      compressHtml gz brc html acc = { data := .buf (brc html), encoding := some "br" } ∧
      compressFile gzB brB buffer acc = (brB buffer, some "br")) ∧
    (strIncludes acc "br" = false → strIncludes acc "gzip" = true →
      compressHtml gz brc html acc = { data := .buf (gz html), encoding := some "gzip" } ∧
      compressFile gzB brB buffer acc = (gzB buffer, some "gzip")) ∧
    (strIncludes acc "br" = false → strIncludes acc "gzip" = false →
      compressHtml gz brc html acc = { data := .str html, encoding := none } ∧
      compressFile gzB brB buffer acc = (buffer, none)) := by
  refine ⟨fun h => ?_, fun h1 h2 => ?_, fun h1 h2 => ?_⟩ <;>
    simp [compressHtml, compressFile, *]

/-- C5 witness: a client accepting only gzip gets the gzip variant from
both negotiators. -/
theorem claimC5_witness :
    compressHtml dGz dBrc "<p>" "gzip"
      = { data := .buf (dGz "<p>"), encoding := some "gzip" } ∧
    compressFile dGzB dBrB [7] "gzip" = (dGzB [7], some "gzip") :=
  (claimC5 dGz dBrc dGzB dBrB "<p>" [7] "gzip").2.1 (by decide) (by decide)

/-- A predicate and its negation partition the count of a list. -/
theorem countP_not_add_countP {α : Type} (q : α → Bool) (l : List α) :
    l.countP (fun a => !(q a)) + l.countP q = l.length := by
  induction l with
  | nil => rfl
  | cons a rest ih =>
    by_cases h : q a = true <;> simp [List.countP_cons, h] <;> omega

/-- Left cancellation for string concatenation. -/
theorem string_append_cancel_left (u a b : String) (h : u ++ a = u ++ b) : a = b := by
  obtain ⟨ud⟩ := u
  obtain ⟨ad⟩ := a
  obtain ⟨bd⟩ := b
  have hd : ud ++ ad = ud ++ bd := congrArg String.data h
  exact congrArg String.mk (List.append_cancel_left hd)

/-- C6: the cache key is a deterministic function of the route and the
device class, and for any route the mobile-classified key differs from the
desktop-classified key, so the two device classes never share an entry. -/
theorem claimC6 (url : String) (ua1 ua2 : Option String) :
    (deviceClass ua1 = deviceClass ua2 →
      generateCacheKey url ua1 = generateCacheKey url ua2) ∧
    (deviceClass ua1 = "mobile" → deviceClass ua2 = "desktop" →
      generateCacheKey url ua1 ≠ generateCacheKey url ua2) := by
  constructor
  · intro h
    unfold generateCacheKey
    rw [h]
  · intro h1 h2 heq
    unfold generateCacheKey at heq
    rw [h1, h2] at heq
    have : ("mobile" : String) = "desktop" :=
      string_append_cancel_left (url ++ ":") _ _ heq
    exact absurd this (by decide)

/-- C6 witness: a mobile user agent and an absent user agent for the same
route produce different cache keys. -/
theorem claimC6_witness :
    generateCacheKey "/" (some "Mobile Safari") ≠ generateCacheKey "/" none :=
  (claimC6 "/" (some "Mobile Safari") none).2 (by decide) (by decide)

/-- C7: when the file exists, an If-None-Match header equal to the current
entity tag yields a 304 with no body (and the tag in the ETag header);
otherwise the response carries a body and the tag in the ETag header. -/
theorem claimC7 (md5 : Buffer → String) (gzB brB : Buffer → Buffer)
    (mimeLookup : String → Option String) (mtime : Nat) (bytes : Buffer)
    (fc : FileCache) (filePath inm acc : String) :
    (inm = staticEtag md5 fc filePath mtime bytes →
      serveStaticFile md5 gzB brB mimeLookup (some (mtime, bytes)) fc filePath inm acc =
        some ({ status := 304,
                headers := [("ETag", staticEtag md5 fc filePath mtime bytes)],
                body := none },
              (staticLoad md5 fc filePath mtime bytes).2.2)) ∧
    (inm ≠ staticEtag md5 fc filePath mtime bytes →
      ∃ resp fc2,
        serveStaticFile md5 gzB brB mimeLookup (some (mtime, bytes)) fc filePath inm acc
          = some (resp, fc2) ∧
        resp.status = 200 ∧ resp.body ≠ none ∧
        ("ETag", staticEtag md5 fc filePath mtime bytes) ∈ resp.headers) := by
  constructor
  · intro h
    have hb : (inm == (staticLoad md5 fc filePath mtime bytes).2.1) = true := by
      apply beq_iff_eq.mpr
      simpa [staticEtag] using h
    simp [serveStaticFile, hb, staticEtag]
  · intro h
    have hb : (inm == (staticLoad md5 fc filePath mtime bytes).2.1) = false := by
      apply beq_eq_false_iff_ne.mpr
      simpa [staticEtag] using h
    unfold serveStaticFile
    dsimp only
    rw [if_neg (by simp [hb])]
    by_cases hc : (compressibleTypes.any
        (fun t => strIncludes ((mimeLookup filePath).getD "application/octet-stream") t))
        = true
    · rw [if_pos hc]
      cases he :
          (compressFile gzB brB (staticLoad md5 fc filePath mtime bytes).1 acc).2 with
      | some enc =>
        exact ⟨_, _, rfl, rfl, by simp, by simp [staticEtag]⟩
      | none =>
        exact ⟨_, _, rfl, rfl, by simp, by simp [staticEtag]⟩
    · rw [if_neg hc]
      exact ⟨_, _, rfl, rfl, by simp, by simp [staticEtag]⟩

/-- C7 witness: a conditional request whose If-None-Match equals the
current entity tag of a fresh file gets a 304 without body. -/
theorem claimC7_witness :
    serveStaticFile dMd5 dGzB dBrB (fun _ => some "text/css") (some (0, [1])) [] "f"
        (dMd5 [1]) "" =
      some ({ status := 304,
              headers := [("ETag", staticEtag dMd5 [] "f" 0 [1])],
              body := none },
            (staticLoad dMd5 [] "f" 0 [1]).2.2) :=
  (claimC7 dMd5 dGzB dBrB (fun _ => some "text/css") 0 [1] [] "f" (dMd5 [1]) "").1
    (by decide)

/-- C8: the statistics operation reports the exact entry count as total,
classifies every entry exactly once by the age test against the TTL
(valid and expired partition the entries, summing to the total), and the
stats endpoint leaves the cache state unchanged while reporting those
numbers. -/
theorem claimC8 (now : Nat) (m : PageCache) (signature : String) :
    (getCacheStats now m).total = m.length ∧
    (getCacheStats now m).valid
      = m.countP (fun p => !(decide (now - p.2.timestamp > PAGE_CACHE_DURATION))) ∧
    (getCacheStats now m).expired
      = m.countP (fun p => decide (now - p.2.timestamp > PAGE_CACHE_DURATION)) ∧
    (getCacheStats now m).valid + (getCacheStats now m).expired
      = (getCacheStats now m).total ∧
    (cacheStatsHandler signature ("Bearer " ++ signature) now m).2 = m ∧
    (cacheStatsHandler signature ("Bearer " ++ signature) now m).1.body
      = RespBody.jsonStats (getCacheStats now m).total (getCacheStats now m).valid
          (getCacheStats now m).expired := by
  have hauth : (("Bearer " ++ signature) != ("Bearer " ++ signature)) = false := by
    simp
  have hlen : (getCacheStats now m).valid + (getCacheStats now m).expired
      = (getCacheStats now m).total := by
    rw [getCacheStats_valid_eq_countP, getCacheStats_expired_eq_countP]
    rw [getCacheStats_eq]
    exact countP_not_add_countP
      (fun p : String × PageCacheEntry =>
        decide (now - p.2.timestamp > PAGE_CACHE_DURATION)) m
  refine ⟨rfl, getCacheStats_valid_eq_countP now m,
    getCacheStats_expired_eq_countP now m, hlen, ?_, ?_⟩ <;>
    simp [cacheStatsHandler, hauth]

/-- C9: with a valid bearer token, naming a theme absent from the registry
is answered 404 with no restart scheduled and the registry unchanged,
while a missing theme field or an unparseable body is answered 400 (also
with no restart). -/
theorem claimC9 (keys : List String) (signature t : String) (fetchOk : Bool)
    (hne : t ≠ "") (hmiss : themeExists keys t = false) :
    setThemaHandler keys signature ("Bearer " ++ signature) (.parsed (some t)) fetchOk
      = ({ status := 404, body := "Theme not found", restartScheduled := false }, keys) ∧
    (setThemaHandler keys signature ("Bearer " ++ signature) .malformed fetchOk).1.status
      = 400 ∧
    (setThemaHandler keys signature ("Bearer " ++ signature)
        (.parsed none) fetchOk).1.status = 400 ∧
    (setThemaHandler keys signature ("Bearer " ++ signature)
        .malformed fetchOk).1.restartScheduled = false ∧
    (setThemaHandler keys signature ("Bearer " ++ signature)
        (.parsed none) fetchOk).1.restartScheduled = false := by
  have hauth : (("Bearer " ++ signature) != ("Bearer " ++ signature)) = false := by
    simp
  have hbt : (t == "") = false := beq_eq_false_iff_ne.mpr hne
  refine ⟨?_, ?_, ?_, ?_, ?_⟩ <;> simp [setThemaHandler, hauth, hbt, hmiss]

/-- C9 witness: with one discovered theme directory theme-default, asking
for the namespace missing is a 404 that leaves the registry unchanged and
schedules no restart. -/
theorem claimC9_witness :
    setThemaHandler (themeKeys ["theme-default"]) "s" ("Bearer " ++ "s")
        (.parsed (some "missing")) true
      = ({ status := 404, body := "Theme not found", restartScheduled := false },
         themeKeys ["theme-default"]) :=
  (claimC9 (themeKeys ["theme-default"]) "s" "missing" true (by decide) (by decide)).1
